import Mathlib

deriving instance DecidableEq for Except

/-
Shallow embedding of the plist-rs property-list decoder
(src/plist.rs, src/result.rs, src/reader/mod.rs, src/reader/binary.rs,
src/reader/xml.rs).

Modelling conventions:
- Machine integers (u8/u16/u32/u64/usize/i64) are Nat, with wrap-around
  written out explicitly (mod 2 ^ w) where the source relies on it.
- A byte source (std::io Read + Seek over an in-memory buffer) is a fixed
  byte list plus a cursor position; reading never mutates the bytes, so
  the byte list is passed as an ordinary parameter and the threaded state
  is just the position.
- Fallible operations return PRes: ok / err carry the updated position
  (resp. event-stream rest), panic models a Rust panic (slice index out
  of bounds, chunks(0), stack overflow from unbounded recursion).
- The recursive object resolvers (binary `object` and markup `xml_object`
  and friends) are not structurally terminating in the source (the spec
  notes cyclic offset tables overflow the stack), so they take an explicit
  fuel parameter; fuel exhaustion is modelled as the "stack overflow"
  panic.
- f64 values are modelled exactly: an 8-byte IEEE-754 payload decodes to
  a rational (or an infinity / NaN marker).  The one floating-point
  multiplication in `date` (fract * 10e9) is modelled as exact rational
  multiplication; its rounding is irrelevant to the properties proved.
- External text-conversion collaborators of the markup reader
  (i64::from_str_radix, f64 parse, chrono RFC-3339 parse, base64 decode)
  are fields of an `ExtConv` record that parameterises the markup reader,
  matching their "external pure function" status in the design.
-/

/-- Structural events of the markup tokenizer (the subset of xml-rs
XmlEvent shapes the reader distinguishes; CData stands for any further
"other" event). -/
inductive XmlEvent where
  | StartDocument
  | EndDocument
  | StartElement (name : String)
  | EndElement (name : String)
  | Characters (s : String)
  | CData (s : String)
deriving DecidableEq, Repr

/-- The error taxonomy of src/result.rs.  Wrapped lower-level errors that
carry foreign payloads (io::Error, parse errors, ...) are modelled as bare
constructors; the XML tokenizer error payload is modelled as a String. -/
inductive Error where
  | InvalidMagicBytes
  | InvalidTrailer
  | VersionNotSupported (v : Option String)
  | InvalidKeyObject
  | InvalidBoolean
  | InvalidIntegerSize
  | ObjectNotSupported (tag : Nat)
  | UnexpectedXmlEof
  | UnexpectedXmlEvent (e : XmlEvent)
  | XmlObjectNotSupported (name : String)
  | XmlError (e : String)
  | IoError
  | IntError
  | FloatError
  | DateError
  | Base64Error
  | Utf8Error
  | Utf16Error
deriving DecidableEq, Repr

/-- Exact model of an f64 value: finite values are exact rationals,
plus the two infinities and NaN. -/
inductive PReal where
  | finite (q : Rat)
  | inf (neg : Bool)
  | nan
deriving DecidableEq, Repr

/-- std::time::SystemTime, as a (seconds, nanoseconds) offset from
UNIX_EPOCH; nanos is kept below 10^9 by Duration normalisation. -/
structure PTime where
  secs : Nat
  nanos : Nat
deriving DecidableEq, Repr

/-- The Plist value tree (src/plist.rs).  The FNV HashMap dictionary is
modelled as an association list managed by insertAssoc, which mirrors
HashMap::insert (replace the value of an existing key, else append). -/
inductive Plist where
  | Array (xs : List Plist)
  | Dict (entries : List (String × Plist))
  | Boolean (b : Bool)
  | Data (bytes : List Nat)
  | DateTime (t : PTime)
  | Real (r : PReal)
  | Integer (i : Int)
  | String (s : String)
deriving Repr

/-- Result of a stateful decode step over state σ (byte-cursor position
for the binary reader, remaining event stream for the markup reader). -/
inductive PRes (σ α : Type) where
  | ok (a : α) (s : σ)
  | err (e : Error) (s : σ)
  | panic (msg : String)

/-- A decode outcome with the state forgotten (what the caller of a
top-level entry point observes). -/
inductive RRes (α : Type) where
  | ok (a : α)
  | err (e : Error)
  | panic (msg : String)

def outcome : PRes σ α → RRes α
  | .ok a _ => .ok a
  | .err e _ => .err e
  | .panic m => .panic m

def errOf : PRes σ α → Option Error
  | .err e _ => some e
  | _ => none

/-- HashMap::insert on the association-list model: overwrite the value
stored under an existing key (the stored key is not replaced), otherwise
append the new pair. -/
def insertAssoc (l : List (String × Plist)) (k : String) (v : Plist) :
    List (String × Plist) :=
  match l with
  | [] => [(k, v)]
  | (k1, v1) :: rest =>
      if k1 = k then (k1, v) :: rest else (k1, v1) :: insertAssoc rest k v

/-- HashMap lookup on the association-list model. -/
def lookupAssoc (l : List (String × Plist)) (k : String) : Option Plist :=
  match l with
  | [] => none
  | (k1, v1) :: rest => if k1 = k then some v1 else lookupAssoc rest k

/-- str::from_utf8 / String::from_utf8: strict UTF-8 decoding of a byte
list (rejecting overlong forms, surrogates and values above 0x10FFFF),
none on invalid input. -/
def utf8Decode : List Nat → Option (List Char)
  | [] => some []
  | b :: rest =>
      if b < 0x80 then
        (utf8Decode rest).map (fun cs => Char.ofNat b :: cs)
      else if b < 0xC2 then
        none
      else if b < 0xE0 then
        match rest with
        | c1 :: rest1 =>
            if 0x80 ≤ c1 ∧ c1 < 0xC0 then
              (utf8Decode rest1).map
                (fun cs => Char.ofNat ((b - 0xC0) * 64 + (c1 - 0x80)) :: cs)
            else none
        | [] => none
      else if b < 0xF0 then
        match rest with
        | c1 :: c2 :: rest2 =>
            let cp := (b - 0xE0) * 4096 + (c1 - 0x80) * 64 + (c2 - 0x80)
            if (0x80 ≤ c1 ∧ c1 < 0xC0) ∧ (0x80 ≤ c2 ∧ c2 < 0xC0) ∧
                0x800 ≤ cp ∧ ¬(0xD800 ≤ cp ∧ cp < 0xE000) then
              (utf8Decode rest2).map (fun cs => Char.ofNat cp :: cs)
            else none
        | _ => none
      else if b < 0xF5 then
        match rest with
        | c1 :: c2 :: c3 :: rest3 =>
            let cp := (b - 0xF0) * 262144 + (c1 - 0x80) * 4096 +
                (c2 - 0x80) * 64 + (c3 - 0x80)
            if (0x80 ≤ c1 ∧ c1 < 0xC0) ∧ (0x80 ≤ c2 ∧ c2 < 0xC0) ∧
                (0x80 ≤ c3 ∧ c3 < 0xC0) ∧
                0x10000 ≤ cp ∧ cp ≤ 0x10FFFF then
              (utf8Decode rest3).map (fun cs => Char.ofNat cp :: cs)
            else none
        | _ => none
      else none

/-- String::from_utf16 over big-endian-decoded code units: pair up
surrogates, rejecting unpaired ones. -/
def utf16Decode : List Nat → Option (List Char)
  | [] => some []
  | u :: rest =>
      if u < 0xD800 ∨ 0xE000 ≤ u then
        (utf16Decode rest).map (fun cs => Char.ofNat u :: cs)
      else if u < 0xDC00 then
        match rest with
        | v :: rest1 =>
            if 0xDC00 ≤ v ∧ v < 0xE000 then
              (utf16Decode rest1).map
                (fun cs =>
                  Char.ofNat (0x10000 + (u - 0xD800) * 1024 + (v - 0xDC00)) :: cs)
            else none
        | [] => none
      else none

/-- Big-endian value of the first k bytes of buf (the shift-and-or bodies
of be_u16 / be_u32 / be_u64); indexing past the end of buf is a Rust
panic, reported as an error message here. -/
def beFoldE (k : Nat) (buf : List Nat) : Except String Nat :=
  if buf.length < k then .error "index out of bounds"
  else .ok ((buf.take k).foldl (fun acc b => (acc <<< 8) ||| b) 0)

/-- src/reader/binary.rs sized_int: one big-endian integer of the given
byte width; any width outside 1/2/4/8 is panic!("Invalid integer size"). -/
def sized_int (buf : List Nat) (size : Nat) : Except String Nat :=
  match size with
  | 1 => beFoldE 1 buf
  | 2 => beFoldE 2 buf
  | 4 => beFoldE 4 buf
  | 8 => beFoldE 8 buf
  | _ => .error "Invalid integer size"

/-- src/reader/binary.rs validate_size: accept size iff
(size & (!size + 1)) == size && size >> 4 == 0 on u8 (size is assumed
< 256; !size + 1 is wrapping two's-complement negation). -/
def validate_size (size : Nat) : Except Error Nat :=
  if size &&& ((255 - size + 1) % 256) = size ∧ size >>> 4 = 0 then
    .ok size
  else
    .error .InvalidIntegerSize

/-- slice::chunks worker: fuel is an upper bound on the number of chunks
(the callers pass the list length, sufficient for chunk size ≥ 1). -/
def chunksGo (n : Nat) : Nat → List Nat → List (List Nat)
  | 0, _ => []
  | _, [] => []
  | fuel + 1, a :: rest =>
      (a :: rest).take n :: chunksGo n fuel ((a :: rest).drop n)

/-- slice::chunks with chunk size n (callers guard n = 0 separately,
matching the chunks(0) panic). -/
def chunks (n : Nat) (l : List Nat) : List (List Nat) :=
  chunksGo n l.length l

/-- input.take(n).read_to_end(&mut buf): read at most n bytes, silently
accepting a short read at end of input; never fails. -/
def takeRead (bytes : List Nat) (pos n : Nat) : List Nat :=
  (bytes.drop pos).take n

/-- Read::read_exact: n bytes from the cursor, or ErrorKind::UnexpectedEof
when fewer are available (the default impl consumes what is left, so the
failure position is the end of the source). -/
def read_exact (n : Nat) (bytes : List Nat) (pos : Nat) :
    PRes Nat (List Nat) :=
  if n ≤ (bytes.drop pos).length then
    .ok ((bytes.drop pos).take n) (pos + n)
  else
    .err .IoError bytes.length

/-- src/reader/binary.rs sized_ints: take(size * count).read_to_end, then
chunk into size-byte groups and decode each big-endian.  size = 0 (which
validate_size wrongly lets through) panics in chunks(0); a short final
chunk panics inside sized_int via out-of-bounds indexing. -/
def sized_ints (size count : Nat) (bytes : List Nat) (pos : Nat) :
    PRes Nat (List Nat) :=
  let buf := takeRead bytes pos (size * count)
  if size = 0 then .panic "chunk size must be non-zero"
  else
    match (chunks size buf).mapM (fun c => sized_int c size) with
    | .ok vals => .ok vals (pos + buf.length)
    | .error m => .panic m

/-- src/reader/binary.rs read_sized: a length byte whose low nibble is
log2 of the byte width (1u8 << n masks n modulo 8, as released Rust
defines overflowing shifts), validated, then that many payload bytes in
an 8-byte zero-padded buffer. -/
def read_sized (bytes : List Nat) (pos : Nat) :
    PRes Nat (List Nat × Nat) :=
  match read_exact 1 bytes pos with
  | .ok lenb pos1 =>
      match validate_size (1 <<< ((lenb.headD 0 &&& 0xF) % 8)) with
      | .ok size =>
          match read_exact size bytes pos1 with
          | .ok b pos2 => .ok (b ++ List.replicate (8 - size) 0, size) pos2
          | .err e p => .err e p
          | .panic m => .panic m
      | .error e => .err e pos1
  | .err e p => .err e p
  | .panic m => .panic m

/-- src/reader/binary.rs read_int: one byte; a low nibble below 0xF is the
value, a 0xF low nibble escapes to a read_sized big-endian integer. -/
def read_int (bytes : List Nat) (pos : Nat) : PRes Nat Nat :=
  match read_exact 1 bytes pos with
  | .ok b pos1 =>
      if b.headD 0 &&& 0xF = 0xF then
        match read_sized bytes pos1 with
        | .ok (buf, len) pos2 =>
            match sized_int buf len with
            | .ok v => .ok v pos2
            | .error m => .panic m
        | .err e p => .err e p
        | .panic m => .panic m
      else
        .ok (b.headD 0 &&& 0xF) pos1
  | .err e p => .err e p
  | .panic m => .panic m

/-- src/reader/binary.rs trailer: seek 26 bytes from the end (an i/o error
on sources shorter than that), validate the two size bytes, read the
object count, root index and table offset, then read the offset table. -/
def trailer (bytes : List Nat) (pos : Nat) :
    PRes Nat (Nat × Nat × List Nat) :=
  if bytes.length < 26 then .err .IoError pos
  else
    match read_exact 26 bytes (bytes.length - 26) with
    | .ok t pos1 =>
        match validate_size (t.headD 0) with
        | .error e => .err e pos1
        | .ok offset_size =>
            match validate_size ((t.drop 1).headD 0) with
            | .error e => .err e pos1
            | .ok ref_size =>
                match beFoldE 8 (t.drop 2), beFoldE 8 (t.drop 10),
                    beFoldE 8 (t.drop 18) with
                | .ok obj_count, .ok root, .ok table_offset =>
                    match sized_ints offset_size obj_count bytes table_offset with
                    | .ok offsets pos2 => .ok (root, ref_size, offsets) pos2
                    | .err e p => .err e p
                    | .panic m => .panic m
                | _, _, _ => .panic "index out of bounds"
    | .err e p => .err e p
    | .panic m => .panic m

/-- Exact value of an IEEE-754 binary64 bit pattern (bits < 2^64). -/
def decodeF64 (bits : Nat) : PReal :=
  let sgn : Nat := bits >>> 63
  let e : Nat := (bits >>> 52) &&& 2047
  let m : Nat := bits &&& (2 ^ 52 - 1)
  if e = 2047 then
    if m = 0 then .inf (sgn == 1) else .nan
  else
    let mag : Rat :=
      if e = 0 then (m : Rat) * (2 : Rat) ^ (-(1074 : Int))
      else ((2 ^ 52 + m : Nat) : Rat) * (2 : Rat) ^ ((e : Int) - 1075)
    .finite (if sgn == 1 then -mag else mag)

/-- Exact value of an IEEE-754 binary32 bit pattern (bits < 2^32); the
`as f64` promotion in `real` is exact, so the PReal is already the
promoted value. -/
def decodeF32 (bits : Nat) : PReal :=
  let sgn : Nat := bits >>> 31
  let e : Nat := (bits >>> 23) &&& 255
  let m : Nat := bits &&& (2 ^ 23 - 1)
  if e = 255 then
    if m = 0 then .inf (sgn == 1) else .nan
  else
    let mag : Rat :=
      if e = 0 then (m : Rat) * (2 : Rat) ^ (-(149 : Int))
      else ((2 ^ 23 + m : Nat) : Rat) * (2 : Rat) ^ ((e : Int) - 150)
    .finite (if sgn == 1 then -mag else mag)

/-- f64::trunc on an exact rational: round toward zero. -/
def ratTrunc (q : Rat) : Int :=
  if 0 ≤ q then q.floor else q.ceil

/-- f64::fract (self - self.trunc()); the fract of an infinity or NaN is
NaN. -/
def pfract : PReal → PReal
  | .finite q => .finite (q - ratTrunc q)
  | .inf _ => .nan
  | .nan => .nan

/-- Multiplication of an f64 by a positive constant (only used with 10e9),
modelled exactly. -/
def pmulC (p : PReal) (c : Rat) : PReal :=
  match p with
  | .finite q => .finite (q * c)
  | .inf b => .inf b
  | .nan => .nan

/-- `x.trunc() as u64` (saturating float-to-integer cast; NaN casts to
0). -/
def castU64sat : PReal → Nat
  | .finite q => min (ratTrunc q).toNat (2 ^ 64 - 1)
  | .inf b => if b then 0 else 2 ^ 64 - 1
  | .nan => 0

/-- `x as u32` on an already-scaled f64 (saturating cast; NaN casts to
0). -/
def castU32sat : PReal → Nat
  | .finite q => min (ratTrunc q).toNat (2 ^ 32 - 1)
  | .inf b => if b then 0 else 2 ^ 32 - 1
  | .nan => 0

/-- u64 -> i64 `as` conversion: reinterpret the low 64 bits as
two's-complement. -/
def i64ofU64 (n : Nat) : Int :=
  if n % 2 ^ 64 < 2 ^ 63 then ((n % 2 ^ 64 : Nat) : Int)
  else ((n % 2 ^ 64 : Nat) : Int) - 2 ^ 64

/-- src/reader/binary.rs boolean: the tag byte's low nibble must be the
reserved false (0x8) or true (0x9) marker. -/
def boolean (bytes : List Nat) (pos : Nat) : PRes Nat Plist :=
  match read_exact 1 bytes pos with
  | .ok b pos1 =>
      match b.headD 0 &&& 0xF with
      | 8 => .ok (.Boolean false) pos1
      | 9 => .ok (.Boolean true) pos1
      | _ => .err .InvalidBoolean pos1
  | .err e p => .err e p
  | .panic m => .panic m

/-- src/reader/binary.rs integer: skip the tag byte, then a
variable-length integer reinterpreted as i64. -/
def integer (bytes : List Nat) (pos : Nat) : PRes Nat Plist :=
  match read_int bytes (pos + 1) with
  | .ok v p => .ok (.Integer (i64ofU64 v)) p
  | .err e p => .err e p
  | .panic m => .panic m

/-- src/reader/binary.rs real: a read_sized payload interpreted as
IEEE-754 (4 bytes promoted to f64, 8 bytes direct); widths 1 and 2 fail
with InvalidIntegerSize. -/
def real (bytes : List Nat) (pos : Nat) : PRes Nat Plist :=
  match read_sized bytes pos with
  | .ok (buf, len) p =>
      match len with
      | 4 =>
          match beFoldE 4 buf with
          | .ok bits => .ok (.Real (decodeF32 bits)) p
          | .error m => .panic m
      | 8 =>
          match beFoldE 8 buf with
          | .ok bits => .ok (.Real (decodeF64 bits)) p
          | .error m => .panic m
      | _ => .err .InvalidIntegerSize p
  | .err e p => .err e p
  | .panic m => .panic m

/-- src/reader/binary.rs date: 9 bytes (tag + 8-byte big-endian f64 of
seconds since 2001-01-01, which is 978307200 seconds after UNIX_EPOCH);
Duration::new(secs.trunc() as u64, (secs.fract() * 10e9) as u32), where
10e9 is the f64 literal 1.0e10, and Duration::new carries nanos above
10^9 into the seconds. -/
def date (bytes : List Nat) (pos : Nat) : PRes Nat Plist :=
  match read_exact 9 bytes pos with
  | .ok buf p =>
      match beFoldE 8 (buf.drop 1) with
      | .ok bits =>
          let secs := decodeF64 bits
          let ds := castU64sat secs
          let dn := castU32sat (pmulC (pfract secs) 10000000000)
          .ok (.DateTime ⟨978307200 + (ds + dn / 1000000000),
              dn % 1000000000⟩) p
      | .error m => .panic m
  | .err e p => .err e p
  | .panic m => .panic m

/-- src/reader/binary.rs data: a variable-length count, then a
length-limited read_to_end that silently accepts a short read. -/
def data (bytes : List Nat) (pos : Nat) : PRes Nat Plist :=
  match read_int bytes pos with
  | .ok len p1 =>
      let buf := takeRead bytes p1 len
      .ok (.Data buf) (p1 + buf.length)
  | .err e p => .err e p
  | .panic m => .panic m

/-- src/reader/binary.rs string: like data, but the bytes must decode as
UTF-8. -/
def string (bytes : List Nat) (pos : Nat) : PRes Nat Plist :=
  match read_int bytes pos with
  | .ok len p1 =>
      let buf := takeRead bytes p1 len
      match utf8Decode buf with
      | some cs => .ok (.String (String.mk cs)) (p1 + buf.length)
      | none => .err .Utf8Error (p1 + buf.length)
  | .err e p => .err e p
  | .panic m => .panic m

/-- src/reader/binary.rs utf16_string: a count of code units, 2 * count
bytes, big-endian u16 code units decoded as UTF-16. -/
def utf16_string (bytes : List Nat) (pos : Nat) : PRes Nat Plist :=
  match read_int bytes pos with
  | .ok len p1 =>
      let buf := takeRead bytes p1 (len * 2)
      match (chunks 2 buf).mapM (fun c => beFoldE 2 c) with
      | .ok points =>
          match utf16Decode points with
          | some cs => .ok (.String (String.mk cs)) (p1 + buf.length)
          | none => .err .Utf16Error (p1 + buf.length)
      | .error m => .panic m
  | .err e p => .err e p
  | .panic m => .panic m

/-- The element loop of src/reader/binary.rs array, abstracted over the
object resolver objFn (which `object` instantiates with itself at one
less fuel): resolve each reference, pushing values in order. -/
def arrayLoop (objFn : Nat → Nat → PRes Nat Plist) :
    List Nat → List Plist → Nat → PRes Nat Plist
  | [], acc, pos => .ok (.Array acc) pos
  | v :: rest, acc, pos =>
      match objFn v pos with
      | .ok value p1 => arrayLoop objFn rest (acc ++ [value]) p1
      | .err e p => .err e p
      | .panic m => .panic m

/-- src/reader/binary.rs array (body): a variable-length count, count
ref-size references, then the element loop. -/
def arrayRun (objFn : Nat → Nat → PRes Nat Plist) (ref_size : Nat)
    (bytes : List Nat) (pos : Nat) : PRes Nat Plist :=
  match read_int bytes pos with
  | .ok len p1 =>
      match sized_ints ref_size len bytes p1 with
      | .ok values p2 => arrayLoop objFn values [] p2
      | .err e p => .err e p
      | .panic m => .panic m
  | .err e p => .err e p
  | .panic m => .panic m

/-- The pair loop of src/reader/binary.rs dict, abstracted over the
object resolver: resolve the key reference first (the resolved key must
itself be a String, else InvalidKeyObject and the paired value reference
is never resolved), then the value, inserting pairs in order. -/
def dictLoop (objFn : Nat → Nat → PRes Nat Plist) :
    List (Nat × Nat) → List (String × Plist) → Nat → PRes Nat Plist
  | [], acc, pos => .ok (.Dict acc) pos
  | (k, v) :: rest, acc, pos =>
      match objFn k pos with
      | .ok (.String s) p1 =>
          match objFn v p1 with
          | .ok value p2 => dictLoop objFn rest (insertAssoc acc s value) p2
          | .err e p => .err e p
          | .panic m => .panic m
      | .ok _ p1 => .err .InvalidKeyObject p1
      | .err e p => .err e p
      | .panic m => .panic m

/-- src/reader/binary.rs dict (body): a count, count key references,
count value references, then the pair loop over the zipped pairs. -/
def dictRun (objFn : Nat → Nat → PRes Nat Plist) (ref_size : Nat)
    (bytes : List Nat) (pos : Nat) : PRes Nat Plist :=
  match read_int bytes pos with
  | .ok len p1 =>
      match sized_ints ref_size len bytes p1 with
      | .ok keys p2 =>
          match sized_ints ref_size len bytes p2 with
          | .ok values p3 => dictLoop objFn (keys.zip values) [] p3
          | .err e p => .err e p
          | .panic m => .panic m
      | .err e p => .err e p
      | .panic m => .panic m
  | .err e p => .err e p
  | .panic m => .panic m

/-- src/reader/binary.rs object: look the object's offset up in the
offset table (an unchecked Vec index: out of range panics), peek the tag
byte, seek back, and dispatch on the high nibble; the containers resolve
children through `object` itself (unbounded recursion in the source,
bounded here by fuel). -/
def object : Nat → Nat → Nat → List Nat → List Nat → Nat → PRes Nat Plist
  | 0, _, _, _, _, _ => .panic "stack overflow"
  | fuel + 1, obj, ref_size, offsets, bytes, _pos =>
      match offsets.get? obj with
      | none => .panic "index out of bounds"
      | some off =>
          match read_exact 1 bytes off with
          | .ok b _ =>
              match b.headD 0 >>> 4 with
              | 0 => boolean bytes off
              | 1 => integer bytes off
              | 2 => real bytes off
              | 3 => date bytes off
              | 4 => data bytes off
              | 5 => string bytes off
              | 6 => utf16_string bytes off
              | 10 => arrayRun (fun v p => object fuel v ref_size offsets bytes p)
                  ref_size bytes off
              | 13 => dictRun (fun v p => object fuel v ref_size offsets bytes p)
                  ref_size bytes off
              | t => .err (.ObjectNotSupported t) off
          | .err e p => .err e p
          | .panic m => .panic m

/-- src/reader/binary.rs array, with the resolver instantiated the way
`object` does. -/
def array (fuel ref_size : Nat) (offsets bytes : List Nat) (pos : Nat) :
    PRes Nat Plist :=
  arrayRun (fun v p => object fuel v ref_size offsets bytes p) ref_size bytes pos

/-- src/reader/binary.rs dict, with the resolver instantiated the way
`object` does. -/
def dict (fuel ref_size : Nat) (offsets bytes : List Nat) (pos : Nat) :
    PRes Nat Plist :=
  dictRun (fun v p => object fuel v ref_size offsets bytes p) ref_size bytes pos

/-- src/reader/binary.rs from_binary_reader: seek to the start, check the
6-byte magic (InvalidMagicBytes on mismatch or invalid UTF-8), check the
2-byte version against "00", then run the trailer; any trailer failure is
replaced wholesale by InvalidTrailer, and on success the root object is
resolved. -/
def from_binary_reader (fuel : Nat) (bytes : List Nat) (_pos : Nat) :
    PRes Nat Plist :=
  match read_exact 6 bytes 0 with
  | .ok magic p1 =>
      match (utf8Decode magic).map String.mk with
      | some s =>
          if s = "bplist" then
            match read_exact 2 bytes p1 with
            | .ok ver p2 =>
                match (utf8Decode ver).map String.mk with
                | some v =>
                    if v = "00" then
                      match trailer bytes p2 with
                      | .ok (root, ref_size, offsets) p3 =>
                          object fuel root ref_size offsets bytes p3
                      | .err _ p3 => .err .InvalidTrailer p3
                      | .panic m => .panic m
                    else .err (.VersionNotSupported (some v)) p2
                | none => .err (.VersionNotSupported none) p2
            | .err e p => .err e p
            | .panic m => .panic m
          else .err .InvalidMagicBytes p1
      | none => .err .InvalidMagicBytes p1
  | .err e p => .err e p
  | .panic m => .panic m

/-- The event stream the markup reader consumes: each item is either a
tokenizer failure (payload modelled as a String) or a structural event. -/
abbrev XStream := List (Except String XmlEvent)

/-- External text-conversion collaborators of the markup reader (treated
as external pure functions by the design): i64::from_str_radix base 10,
f64 parsing, chrono RFC-3339 parsing (yielding .timestamp(), an i64), and
base64 decoding.  none models a conversion failure, which the reader maps
to its corresponding wrapped error. -/
structure ExtConv where
  parseI64 : String → Option Int
  parseF64 : String → Option PReal
  parseDate : String → Option Int
  parseBase64 : String → Option (List Nat)

/-- src/reader/xml.rs xml_event with a pure predicate (the xml_start and
document-start uses): consume events until the predicate accepts (some
true), rejects (some false, UnexpectedXmlEvent carrying the event), or
the stream ends (UnexpectedXmlEof); a tokenizer failure becomes
XmlError. -/
def xml_event (pred : XmlEvent → Option Bool) : XStream → PRes XStream Unit
  | [] => .err .UnexpectedXmlEof []
  | .error e :: rest => .err (.XmlError e) rest
  | .ok ev :: rest =>
      match pred ev with
      | some true => .ok () rest
      | some false => .err (.UnexpectedXmlEvent ev) rest
      | none => xml_event pred rest

/-- src/reader/xml.rs xml_start: skip character runs until the expected
start tag; any other event is UnexpectedXmlEvent. -/
def xml_start (name : String) : XStream → PRes XStream Unit :=
  xml_event (fun e =>
    match e with
    | .StartElement n => some (n == name)
    | .Characters _ => none
    | _ => some false)

/-- The stateful closure of src/reader/xml.rs xml_end: remember the last
character run (later runs replace earlier ones) until the expected end
tag, then yield it (or "" when no characters were seen). -/
def xml_endAux (name : String) (acc : Option String) :
    XStream → PRes XStream String
  | [] => .err .UnexpectedXmlEof []
  | .error e :: rest => .err (.XmlError e) rest
  | .ok ev :: rest =>
      match ev with
      | .EndElement n =>
          if n == name then .ok (acc.getD "") rest
          else .err (.UnexpectedXmlEvent ev) rest
      | .Characters str => xml_endAux name (some str) rest
      | _ => .err (.UnexpectedXmlEvent ev) rest

/-- src/reader/xml.rs xml_end. -/
def xml_end (name : String) : XStream → PRes XStream String :=
  xml_endAux name none

/-- src/reader/xml.rs xml_content: the start tag, then the character
content up to the matching end tag. -/
def xml_content (name : String) (s : XStream) : PRes XStream String :=
  match xml_start name s with
  | .ok _ s1 => xml_end name s1
  | .err e s1 => .err e s1
  | .panic m => .panic m

/-- src/reader/xml.rs xml_boolean: the next start element must be the
self-closing true or false tag (whose end tag is then consumed);
character runs are skipped; anything else is UnexpectedXmlEvent. -/
def xml_boolean : XStream → PRes XStream Plist
  | [] => .err .UnexpectedXmlEof []
  | .error e :: rest => .err (.XmlError e) rest
  | .ok ev :: rest =>
      match ev with
      | .StartElement n =>
          if n == "true" then
            match xml_end "true" rest with
            | .ok _ s1 => .ok (.Boolean true) s1
            | .err e s1 => .err e s1
            | .panic m => .panic m
          else if n == "false" then
            match xml_end "false" rest with
            | .ok _ s1 => .ok (.Boolean false) s1
            | .err e s1 => .err e s1
            | .panic m => .panic m
          else .err (.UnexpectedXmlEvent ev) rest
      | .Characters _ => xml_boolean rest
      | _ => .err (.UnexpectedXmlEvent ev) rest

/-- src/reader/xml.rs xml_integer: integer element content parsed base
10; a parse failure is the wrapped IntError. -/
def xml_integer (ext : ExtConv) (s : XStream) : PRes XStream Plist :=
  match xml_content "integer" s with
  | .ok str s1 =>
      match ext.parseI64 str with
      | some i => .ok (.Integer i) s1
      | none => .err .IntError s1
  | .err e s1 => .err e s1
  | .panic m => .panic m

/-- src/reader/xml.rs xml_real. -/
def xml_real (ext : ExtConv) (s : XStream) : PRes XStream Plist :=
  match xml_content "real" s with
  | .ok str s1 =>
      match ext.parseF64 str with
      | some r => .ok (.Real r) s1
      | none => .err .FloatError s1
  | .err e s1 => .err e s1
  | .panic m => .panic m

/-- src/reader/xml.rs xml_date: RFC-3339 content; .timestamp() is an i64
cast `as u64` (wrapping) and used as whole seconds from UNIX_EPOCH. -/
def xml_date (ext : ExtConv) (s : XStream) : PRes XStream Plist :=
  match xml_content "date" s with
  | .ok str s1 =>
      match ext.parseDate str with
      | some ts => .ok (.DateTime ⟨((ts % (2 ^ 64 : Int)).toNat), 0⟩) s1
      | none => .err .DateError s1
  | .err e s1 => .err e s1
  | .panic m => .panic m

/-- char::is_whitespace removal before base64 decoding (split_whitespace
plus concatenation). -/
def stripWs (s : String) : String :=
  String.mk (s.data.filter (fun c => ¬ c.isWhitespace))

/-- src/reader/xml.rs xml_data: whitespace-stripped base64 content. -/
def xml_data (ext : ExtConv) (s : XStream) : PRes XStream Plist :=
  match xml_content "data" s with
  | .ok str s1 =>
      match ext.parseBase64 (stripWs str) with
      | some bs => .ok (.Data bs) s1
      | none => .err .Base64Error s1
  | .err e s1 => .err e s1
  | .panic m => .panic m

/-- src/reader/xml.rs xml_string: the raw character content. -/
def xml_string (s : XStream) : PRes XStream Plist :=
  match xml_content "string" s with
  | .ok str s1 => .ok (.String str) s1
  | .err e s1 => .err e s1
  | .panic m => .panic m

/-- The child loop of src/reader/xml.rs xml_array, abstracted over the
child parser objFn (which xml_object instantiates with itself at one
less fuel): parse children until a child parse attempt fails with
UnexpectedXmlEvent carrying the array's own end tag (consumed by that
attempt); that failure ends the loop successfully, any other failure is
the array's failure. -/
def xml_arrayLoop (objFn : XStream → PRes XStream Plist) :
    Nat → List Plist → XStream → PRes XStream (List Plist)
  | 0, _, _ => .panic "stack overflow"
  | fuel + 1, acc, s =>
      match objFn s with
      | .ok o s1 => xml_arrayLoop objFn fuel (acc ++ [o]) s1
      | .err (.UnexpectedXmlEvent ev) s1 =>
          match ev with
          | .EndElement n =>
              if n == "array" then .ok acc s1
              else .err (.UnexpectedXmlEvent ev) s1
          | _ => .err (.UnexpectedXmlEvent ev) s1
      | .err e s1 => .err e s1
      | .panic m => .panic m

/-- src/reader/xml.rs xml_array (body): consume the array start tag, then
the sentinel-terminated child loop. -/
def xml_arrayRun (objFn : XStream → PRes XStream Plist) (fuel : Nat)
    (s : XStream) : PRes XStream Plist :=
  match xml_start "array" s with
  | .ok _ s1 =>
      match xml_arrayLoop objFn fuel [] s1 with
      | .ok l s2 => .ok (.Array l) s2
      | .err e s2 => .err e s2
      | .panic m => .panic m
  | .err e s1 => .err e s1
  | .panic m => .panic m

/-- The pair loop of src/reader/xml.rs xml_dict, abstracted over the
child parser: a key element parsed as text, then one child value,
inserted into the FNV map; the sentinel rule is applied to the key
attempt only (a key attempt failing with UnexpectedXmlEvent on the
dict's own end tag ends the loop); a value failure propagates. -/
def xml_dictLoop (objFn : XStream → PRes XStream Plist) :
    Nat → List (String × Plist) → XStream →
    PRes XStream (List (String × Plist))
  | 0, _, _ => .panic "stack overflow"
  | fuel + 1, acc, s =>
      match xml_content "key" s with
      | .ok key s1 =>
          match objFn s1 with
          | .ok v s2 => xml_dictLoop objFn fuel (insertAssoc acc key v) s2
          | .err e s2 => .err e s2
          | .panic m => .panic m
      | .err (.UnexpectedXmlEvent ev) s1 =>
          match ev with
          | .EndElement n =>
              if n == "dict" then .ok acc s1
              else .err (.UnexpectedXmlEvent ev) s1
          | _ => .err (.UnexpectedXmlEvent ev) s1
      | .err e s1 => .err e s1
      | .panic m => .panic m

/-- src/reader/xml.rs xml_dict (body): consume the dict start tag, then
the sentinel-terminated key/value loop. -/
def xml_dictRun (objFn : XStream → PRes XStream Plist) (fuel : Nat)
    (s : XStream) : PRes XStream Plist :=
  match xml_start "dict" s with
  | .ok _ s1 =>
      match xml_dictLoop objFn fuel [] s1 with
      | .ok l s2 => .ok (.Dict l) s2
      | .err e s2 => .err e s2
      | .panic m => .panic m
  | .err e s1 => .err e s1
  | .panic m => .panic m

/-- src/reader/xml.rs xml_object: peek (without consuming) the next
event; a start element dispatches by name (an unknown name is
XmlObjectNotSupported, still unconsumed); otherwise consume one event:
characters retry, anything else is UnexpectedXmlEvent / UnexpectedXmlEof,
and a tokenizer failure is XmlError. -/
def xml_object (ext : ExtConv) : Nat → XStream → PRes XStream Plist
  | 0, _ => .panic "stack overflow"
  | fuel + 1, s =>
      match s with
      | .ok (XmlEvent.StartElement n) :: _ =>
          match n with
          | "true" => xml_boolean s
          | "false" => xml_boolean s
          | "integer" => xml_integer ext s
          | "real" => xml_real ext s
          | "date" => xml_date ext s
          | "data" => xml_data ext s
          | "string" => xml_string s
          | "array" => xml_arrayRun (xml_object ext fuel) fuel s
          | "dict" => xml_dictRun (xml_object ext fuel) fuel s
          | _ => .err (.XmlObjectNotSupported n) s
      | .ok (XmlEvent.Characters _) :: rest => xml_object ext fuel rest
      | .ok ev :: rest => .err (.UnexpectedXmlEvent ev) rest
      | .error e :: rest => .err (.XmlError e) rest
      | [] => .err .UnexpectedXmlEof []

/-- src/reader/xml.rs xml_array, with the child parser instantiated the
way xml_object does. -/
def xml_array (ext : ExtConv) (fuel : Nat) (s : XStream) :
    PRes XStream Plist :=
  match fuel with
  | 0 => .panic "stack overflow"
  | fuel + 1 => xml_arrayRun (xml_object ext fuel) fuel s

/-- src/reader/xml.rs xml_dict, with the child parser instantiated the
way xml_object does. -/
def xml_dict (ext : ExtConv) (fuel : Nat) (s : XStream) :
    PRes XStream Plist :=
  match fuel with
  | 0 => .panic "stack overflow"
  | fuel + 1 => xml_dictRun (xml_object ext fuel) fuel s

/-- src/reader/xml.rs from_xml_reader (taking the already-tokenized event
stream; the xml-rs tokenizer is an external collaborator): skip to the
document start, the plist start tag, exactly one value, and the plist end
tag. -/
def from_xml_reader (ext : ExtConv) (fuel : Nat) (s : XStream) :
    PRes XStream Plist :=
  match xml_event (fun e =>
      some (match e with
            | .StartDocument => true
            | _ => false)) s with
  | .ok _ s1 =>
      match xml_start "plist" s1 with
      | .ok _ s2 =>
          match xml_object ext fuel s2 with
          | .ok obj s3 =>
              match xml_end "plist" s3 with
              | .ok _ s4 => .ok obj s4
              | .err e s4 => .err e s4
              | .panic m => .panic m
          | .err e s3 => .err e s3
          | .panic m => .panic m
      | .err e s2 => .err e s2
      | .panic m => .panic m
  | .err e s1 => .err e s1
  | .panic m => .panic m

/-- src/reader/mod.rs from_reader: try the binary reader; only an
InvalidMagicBytes failure falls back (after rewinding to offset 0, so the
tokenizer sees the whole byte source) to the markup reader; every other
binary result, and any markup result after fallback, is returned as-is.
tok models the external xml-rs tokenizer turning bytes into events. -/
def from_reader (fuel : Nat) (tok : List Nat → XStream) (ext : ExtConv)
    (bytes : List Nat) (pos : Nat) : RRes Plist :=
  match from_binary_reader fuel bytes pos with
  | .ok p _ => .ok p
  | .err .InvalidMagicBytes _ => outcome (from_xml_reader ext fuel (tok bytes))
  | .err e _ => .err e
  | .panic m => .panic m

/-- A trivial external-converter instance (every conversion fails),
used to instantiate ExtConv in concrete examples that never reach a
conversion. -/
def extNone : ExtConv :=
  ⟨fun _ => none, fun _ => none, fun _ => none, fun _ => none⟩

theorem nat_and15 (b : Nat) : b &&& 15 = b % 16 := by
  simpa using Nat.and_pow_two_sub_one_eq_mod b 4

theorem nat_shr4 (b : Nat) : b >>> 4 = b / 16 := by
  simp [Nat.shiftRight_eq_div_pow]

theorem read_exact_of_le (n : Nat) (bytes : List Nat) (pos : Nat)
    (h : n ≤ (bytes.drop pos).length) :
    read_exact n bytes pos = .ok ((bytes.drop pos).take n) (pos + n) := by
  unfold read_exact
  rw [if_pos h]

/-- Claim C7: decoding a binary integer object whose variable-length
payload is the 0xF-escaped 8-byte big-endian two's-complement encoding of
v yields exactly Integer(v), for v = 0, -1, i64::MAX and i64::MIN. -/
theorem claim_C7 :
    outcome (object 1 0 1 [0]
      ([0x10, 0x0F, 0x03] ++ [0, 0, 0, 0, 0, 0, 0, 0]) 0) =
      .ok (.Integer 0) ∧
    outcome (object 1 0 1 [0]
      ([0x10, 0x0F, 0x03] ++ [255, 255, 255, 255, 255, 255, 255, 255]) 0) =
      .ok (.Integer (-1)) ∧
    outcome (object 1 0 1 [0]
      ([0x10, 0x0F, 0x03] ++ [127, 255, 255, 255, 255, 255, 255, 255]) 0) =
      .ok (.Integer 9223372036854775807) ∧
    outcome (object 1 0 1 [0]
      ([0x10, 0x0F, 0x03] ++ [128, 0, 0, 0, 0, 0, 0, 0]) 0) =
      .ok (.Integer (-9223372036854775808)) :=
  ⟨by rfl, by rfl, by rfl, by rfl⟩

/-- Claim C8: object resolution indexes the offset table without a bounds
check, so any out-of-range reference panics, and in particular a document
with valid magic, version and trailer whose root index (5) is at least
the object count (1) makes from_binary_reader panic with an out-of-bounds
index instead of returning an Error. -/
theorem claim_C8 :
    (∀ fuel obj ref_size offsets bytes pos, offsets.length ≤ obj →
      object (fuel + 1) obj ref_size offsets bytes pos =
        .panic "index out of bounds") ∧
    outcome (from_binary_reader 5
      [98, 112, 108, 105, 115, 116, 48, 48, 9, 8,
       1, 1, 0, 0, 0, 0, 0, 0, 0, 1,
       0, 0, 0, 0, 0, 0, 0, 5,
       0, 0, 0, 0, 0, 0, 0, 9] 0) = .panic "index out of bounds" := by
  constructor
  · intro fuel obj ref_size offsets bytes pos h
    simp [object, List.getElem?_eq_none h]
  · rfl

theorem claim_C8_witness :
    object 1 5 1 [0] [9] 0 = .panic "index out of bounds" :=
  claim_C8.1 0 5 1 [0] [9] 0 (by decide)

/-- Claim C9 counterexample: a binary string object declaring length 2
with a single (non-UTF-8-prefix) byte available does fail - with
Utf8Error - rather than returning a String of the bytes actually
available. -/
theorem claim_C9_counterexample :
    outcome (object 1 0 1 [0] [0x52, 0xC3] 0) = .err .Utf8Error := by rfl

/-- Claim C9 (amended): for a binary data or string object whose declared
(inline) length exceeds the bytes remaining, the length-limited read
silently accepts the short read: a data object yields Data of exactly the
available bytes, and a string object decodes the available bytes as
UTF-8, yielding a String of them when they are valid UTF-8 and Utf8Error
otherwise; truncation itself is never reported as an i/o error. -/
theorem claim_C9 (fuel n ref_size start : Nat) (avail : List Nat)
    (hn : n ≤ 14) (hshort : avail.length < n) :
    object (fuel + 1) 0 ref_size [0] ((64 + n) :: avail) start =
      .ok (.Data avail) (1 + avail.length) ∧
    object (fuel + 1) 0 ref_size [0] ((80 + n) :: avail) start =
      (match utf8Decode avail with
       | some cs => .ok (.String (String.mk cs)) (1 + avail.length)
       | none => .err .Utf8Error (1 + avail.length)) := by
  have h64s : (64 + n) >>> 4 = 4 := by rw [nat_shr4]; omega
  have h80s : (80 + n) >>> 4 = 5 := by rw [nat_shr4]; omega
  have h64a : (64 + n) &&& 15 = n := by rw [nat_and15]; omega
  have h80a : (80 + n) &&& 15 = n := by rw [nat_and15]; omega
  have hne : n ≠ 15 := by omega
  have htake : avail.take n = avail := List.take_of_length_le (Nat.le_of_lt hshort)
  constructor
  · simp [object, read_exact_of_le, h64s, data, read_int, h64a, hne, takeRead, htake]
  · simp [object, read_exact_of_le, h80s, string, read_int, h80a, hne, takeRead, htake]

theorem claim_C9_witness :
    object 1 0 1 [0] [66, 7, 8] 0 = .ok (.Data [7, 8]) 3 ∧
    object 1 0 1 [0] [82, 195] 0 =
      (match utf8Decode [195] with
       | some cs => .ok (.String (String.mk cs)) 2
       | none => .err .Utf8Error 2) :=
  ⟨(claim_C9 0 3 1 0 [7, 8] (by decide) (by decide)).1,
   (claim_C9 0 2 1 0 [195] (by decide) (by decide)).2⟩

theorem boolean_spec (bytes : List Nat) (pos : Nat) (b : Nat)
    (post : List Nat) (hdrop : bytes.drop pos = b :: post) (hlt : b < 16) :
    boolean bytes pos =
      (if b = 8 then .ok (.Boolean false) (pos + 1)
       else if b = 9 then .ok (.Boolean true) (pos + 1)
       else .err .InvalidBoolean (pos + 1)) := by
  have h1 : (1 : Nat) ≤ (bytes.drop pos).length := by rw [hdrop]; simp
  have handb : b &&& 15 = b := by rw [nat_and15]; omega
  unfold boolean
  rw [read_exact_of_le 1 bytes pos h1, hdrop]
  simp only [List.take_succ_cons, List.take_zero, List.headD_cons, handb]
  split
  · simp_all
  · simp_all
  · rename_i hne8 hne9
    simp_all

/-- Claim C6: for a binary object whose tag byte has high nibble 0x0,
decoding yields Boolean(false) iff the byte is exactly 0x08, Boolean(true)
iff it is exactly 0x09, and fails with InvalidBoolean for every other
such byte. -/
theorem claim_C6 (fuel ref_size start : Nat) (pre post : List Nat)
    (b : Nat) (hb : b >>> 4 = 0) :
    object (fuel + 1) 0 ref_size [pre.length] (pre ++ b :: post) start =
      (if b = 8 then .ok (.Boolean false) (pre.length + 1)
       else if b = 9 then .ok (.Boolean true) (pre.length + 1)
       else .err .InvalidBoolean (pre.length + 1)) := by
  have hlt : b < 16 := by rw [nat_shr4] at hb; omega
  have hdrop : (pre ++ b :: post).drop pre.length = b :: post :=
    List.drop_left pre (b :: post)
  have h1 : (1 : Nat) ≤ ((pre ++ b :: post).drop pre.length).length := by
    rw [hdrop]; simp
  unfold object
  simp only [List.get?_cons_zero, read_exact_of_le 1 _ _ h1, hdrop,
    List.take_succ_cons, List.take_zero, List.headD_cons, hb]
  exact boolean_spec _ _ b post hdrop hlt

theorem claim_C6_witness :
    object 1 0 1 [1] [7, 9] 5 = .ok (.Boolean true) 2 := by
  have h := claim_C6 0 1 5 [7] [] 9 (by decide)
  simpa using h

/-- Claim C2: from_reader returns the binary reader's result unless that
result is exactly Err(InvalidMagicBytes), in which case it rewinds to
offset 0 and returns the markup reader's result on the whole source; a
binary failure such as VersionNotSupported is returned as-is with no
markup attempt (the result does not depend on the tokenizer), and a
markup failure after fallback is returned as-is. -/
theorem claim_C2 :
    (∀ fuel tok ext bytes pos p s1,
      from_binary_reader fuel bytes pos = .ok p s1 →
      from_reader fuel tok ext bytes pos = .ok p) ∧
    (∀ fuel tok ext bytes pos e s1,
      from_binary_reader fuel bytes pos = .err e s1 →
      e ≠ .InvalidMagicBytes →
      from_reader fuel tok ext bytes pos = .err e) ∧
    (∀ fuel tok ext bytes pos s1,
      from_binary_reader fuel bytes pos = .err .InvalidMagicBytes s1 →
      from_reader fuel tok ext bytes pos =
        outcome (from_xml_reader ext fuel (tok bytes))) ∧
    (∀ fuel tok ext,
      from_reader fuel tok ext [98, 112, 108, 105, 115, 116, 48, 49] 0 =
        .err (.VersionNotSupported (some "01"))) := by
  refine ⟨?_, ?_, ?_, ?_⟩
  · intro fuel tok ext bytes pos p s1 h
    unfold from_reader
    rw [h]
  · intro fuel tok ext bytes pos e s1 h hne
    unfold from_reader
    rw [h]
    cases e <;> simp_all
  · intro fuel tok ext bytes pos s1 h
    unfold from_reader
    rw [h]
  · intro fuel tok ext
    rfl

theorem claim_C2_witness :
    from_reader 1 (fun _ => []) extNone
      [98, 112, 108, 105, 115, 116, 48, 49] 0 =
      .err (.VersionNotSupported (some "01")) ∧
    from_reader 1 (fun _ => []) extNone [60, 63, 120, 109, 108, 32] 0 =
      outcome (from_xml_reader extNone 1 ((fun _ => ([] : XStream))
        [60, 63, 120, 109, 108, 32])) :=
  ⟨claim_C2.2.2.2 1 (fun _ => []) extNone,
   claim_C2.2.2.1 1 (fun _ => []) extNone [60, 63, 120, 109, 108, 32] 0 6
     (by rfl)⟩

set_option maxRecDepth 4000 in
theorem validate_size_out : ∀ s : Nat, s < 256 →
    ¬(s = 0 ∨ s = 1 ∨ s = 2 ∨ s = 4 ∨ s = 8) →
    validate_size s = .error .InvalidIntegerSize := by decide

theorem validate_size_mem (s : Nat) (h : s = 1 ∨ s = 2 ∨ s = 4 ∨ s = 8) :
    validate_size s = .ok s := by
  rcases h with rfl | rfl | rfl | rfl <;> decide

theorem trailer_bad_sizes (front rest24 : List Nat) (pos s r : Nat)
    (h24 : rest24.length = 24)
    (hcase : validate_size s = .error .InvalidIntegerSize ∨
      (validate_size s = .ok s ∧
       validate_size r = .error .InvalidIntegerSize)) :
    trailer (front ++ s :: r :: rest24) pos =
      .err .InvalidIntegerSize (front.length + 26) := by
  have hblen : (front ++ s :: r :: rest24).length = front.length + 26 := by
    simp [h24]
  have hge : ¬ (front ++ s :: r :: rest24).length < 26 := by omega
  have hsub : (front ++ s :: r :: rest24).length - 26 = front.length := by omega
  have hdrop : (front ++ s :: r :: rest24).drop
      ((front ++ s :: r :: rest24).length - 26) = s :: r :: rest24 := by
    rw [hsub]; exact List.drop_left front (s :: r :: rest24)
  have htake : (s :: r :: rest24).take 26 = s :: r :: rest24 :=
    List.take_of_length_le (by simp [h24])
  unfold trailer
  rw [if_neg hge,
    read_exact_of_le 26 _ _ (by rw [hdrop]; simp [h24]), hdrop, htake, hsub]
  rcases hcase with h1 | ⟨h1, h2⟩ <;> simp [h1, *]

theorem fbr_unfold (fuel : Nat) (rest : List Nat) :
    from_binary_reader fuel ([98, 112, 108, 105, 115, 116, 48, 48] ++ rest) 0 =
      (match trailer ([98, 112, 108, 105, 115, 116, 48, 48] ++ rest) 8 with
       | .ok (root, ref_size, offsets) p3 =>
           object fuel root ref_size offsets
             ([98, 112, 108, 105, 115, 116, 48, 48] ++ rest) p3
       | .err _ p3 => .err .InvalidTrailer p3
       | .panic m => .panic m) := by
  have h6 : (([98, 112, 108, 105, 115, 116, 48, 48] ++ rest).drop 0).take 6 =
      [98, 112, 108, 105, 115, 116] := by simp
  have h2 : (([98, 112, 108, 105, 115, 116, 48, 48] ++ rest).drop 6).take 2 =
      [48, 48] := by simp
  unfold from_binary_reader
  rw [read_exact_of_le 6 _ 0 (by simp), h6]
  dsimp only
  rw [show (utf8Decode [98, 112, 108, 105, 115, 116]).map String.mk =
      some "bplist" from rfl]
  dsimp only [Nat.zero_add]
  rw [if_pos rfl, read_exact_of_le 2 _ 6 (by simp), h2]
  dsimp only
  rw [show (utf8Decode [48, 48]).map String.mk = some "00" from rfl]
  dsimp only
  rw [if_pos rfl]

/-- Claim C1 (amended): validate_size accepts exactly the size bytes
{0, 1, 2, 4, 8} (0 wrongly passes the power-of-two check) and rejects
every other byte with InvalidIntegerSize; but from_binary_reader replaces
any trailer-phase failure with InvalidTrailer, so a document with valid
magic and version whose trailer offset-size or reference-size byte is
outside {0, 1, 2, 4, 8} fails with InvalidTrailer (not
InvalidIntegerSize); for size bytes in {1, 2, 4, 8} validation succeeds
and decoding proceeds. -/
theorem claim_C1 :
    (∀ s : Nat, s < 256 →
      ((validate_size s = .ok s ↔ (s = 0 ∨ s = 1 ∨ s = 2 ∨ s = 4 ∨ s = 8)) ∧
       (validate_size s = .error .InvalidIntegerSize ↔
        ¬(s = 0 ∨ s = 1 ∨ s = 2 ∨ s = 4 ∨ s = 8)))) ∧
    (∀ (fuel s : Nat) (mid rest25 : List Nat), s < 256 →
      ¬(s = 0 ∨ s = 1 ∨ s = 2 ∨ s = 4 ∨ s = 8) → rest25.length = 25 →
      outcome (from_binary_reader fuel
        ([98, 112, 108, 105, 115, 116, 48, 48] ++ mid ++ s :: rest25) 0) =
        .err .InvalidTrailer) ∧
    (∀ (fuel s r : Nat) (mid rest24 : List Nat),
      (s = 1 ∨ s = 2 ∨ s = 4 ∨ s = 8) →
      r < 256 → ¬(r = 0 ∨ r = 1 ∨ r = 2 ∨ r = 4 ∨ r = 8) →
      rest24.length = 24 →
      outcome (from_binary_reader fuel
        ([98, 112, 108, 105, 115, 116, 48, 48] ++ mid ++ s :: r :: rest24) 0) =
        .err .InvalidTrailer) := by
  refine ⟨?_, ?_, ?_⟩
  · set_option maxRecDepth 4000 in decide
  · intro fuel s mid rest25 hlt hns h25
    obtain ⟨r, rest24, rfl⟩ : ∃ r rest24, rest25 = r :: rest24 := by
      cases rest25 with
      | nil => simp at h25
      | cons a t => exact ⟨a, t, rfl⟩
    have h24 : rest24.length = 24 := by simpa using h25
    rw [List.append_assoc, fbr_unfold]
    rw [show [98, 112, 108, 105, 115, 116, 48, 48] ++ (mid ++ s :: r :: rest24) =
      ([98, 112, 108, 105, 115, 116, 48, 48] ++ mid) ++ s :: r :: rest24 from
      (List.append_assoc _ _ _).symm]
    rw [trailer_bad_sizes _ _ 8 s r h24 (Or.inl (validate_size_out s hlt hns))]
    rfl
  · intro fuel s r mid rest24 hs hrlt hnr h24
    rw [List.append_assoc, fbr_unfold]
    rw [show [98, 112, 108, 105, 115, 116, 48, 48] ++ (mid ++ s :: r :: rest24) =
      ([98, 112, 108, 105, 115, 116, 48, 48] ++ mid) ++ s :: r :: rest24 from
      (List.append_assoc _ _ _).symm]
    rw [trailer_bad_sizes _ _ 8 s r h24
      (Or.inr ⟨validate_size_mem s hs, validate_size_out r hrlt hnr⟩)]
    rfl

theorem claim_C1_witness :
    (validate_size 3 = .error .InvalidIntegerSize ↔
      ¬((3 : Nat) = 0 ∨ (3 : Nat) = 1 ∨ (3 : Nat) = 2 ∨ (3 : Nat) = 4 ∨
        (3 : Nat) = 8)) ∧
    outcome (from_binary_reader 5
      ([98, 112, 108, 105, 115, 116, 48, 48] ++ [] ++
        3 :: [1, 0, 0, 0, 0, 0, 0, 0, 0, 0, 0, 0, 0, 0, 0, 0, 0, 0, 0, 0, 0,
          0, 0, 0, 0]) 0) = .err .InvalidTrailer ∧
    outcome (from_binary_reader 5
      ([98, 112, 108, 105, 115, 116, 48, 48] ++ [9, 8] ++
        1 :: 6 :: [0, 0, 0, 0, 0, 0, 0, 1, 0, 0, 0, 0, 0, 0, 0, 0, 0, 0, 0,
          0, 0, 0, 0, 9]) 0) = .err .InvalidTrailer :=
  ⟨(claim_C1.1 3 (by decide)).2,
   claim_C1.2.1 5 3 [] _ (by decide) (by decide) (by decide),
   claim_C1.2.2 5 1 6 [9, 8] _ (by decide) (by decide) (by decide) (by decide)⟩

/-- Claim C1 counterexample: with an offset-size byte of 3 the decode
fails with InvalidTrailer, not InvalidIntegerSize as claimed; and a
reference-size byte of 0 - also outside {1, 2, 4, 8} - passes
validate_size and the decode even succeeds. -/
theorem claim_C1_counterexample :
    outcome (from_binary_reader 5
      ([98, 112, 108, 105, 115, 116, 48, 48] ++ [3, 1] ++
        List.replicate 24 0) 0) ≠ .err .InvalidIntegerSize ∧
    outcome (from_binary_reader 5
      ([98, 112, 108, 105, 115, 116, 48, 48] ++ [3, 1] ++
        List.replicate 24 0) 0) = .err .InvalidTrailer ∧
    validate_size 0 = .ok 0 ∧
    outcome (from_binary_reader 5
      [98, 112, 108, 105, 115, 116, 48, 48, 9, 8,
       1, 0, 0, 0, 0, 0, 0, 0, 0, 1,
       0, 0, 0, 0, 0, 0, 0, 0,
       0, 0, 0, 0, 0, 0, 0, 9] 0) = .ok (.Boolean true) :=
  ⟨by
    rw [show outcome (from_binary_reader 5
      ([98, 112, 108, 105, 115, 116, 48, 48] ++ [3, 1] ++
        List.replicate 24 0) 0) = .err .InvalidTrailer from rfl]
    simp, by rfl, by rfl, by rfl⟩

/-- Claim C3: the markup container loops terminate successfully exactly
when a child (for dict: key) parse attempt fails with UnexpectedXmlEvent
carrying the container's own end tag, which that attempt has consumed
(the loop resumes from the failed attempt's stream): a successful child
parse continues the loop, the sentinel failure ends it successfully, any
other child failure (including a dict value failure, even on the dict's
own end tag) is the container's failure; consequently zero-child array
and dict elements decode to empty Array and Dictionary with no error
reported to the caller. -/
theorem claim_C3 :
    (∀ ext fuel acc s v s1, xml_object ext fuel s = .ok v s1 →
      xml_arrayLoop (xml_object ext fuel) (fuel + 1) acc s =
        xml_arrayLoop (xml_object ext fuel) fuel (acc ++ [v]) s1) ∧
    (∀ ext fuel acc s s1,
      xml_object ext fuel s =
        .err (.UnexpectedXmlEvent (.EndElement "array")) s1 →
      xml_arrayLoop (xml_object ext fuel) (fuel + 1) acc s = .ok acc s1) ∧
    (∀ ext fuel acc s e s1, xml_object ext fuel s = .err e s1 →
      e ≠ .UnexpectedXmlEvent (.EndElement "array") →
      xml_arrayLoop (xml_object ext fuel) (fuel + 1) acc s = .err e s1) ∧
    (∀ ext fuel acc s s1,
      xml_content "key" s =
        .err (.UnexpectedXmlEvent (.EndElement "dict")) s1 →
      xml_dictLoop (xml_object ext fuel) (fuel + 1) acc s = .ok acc s1) ∧
    (∀ ext fuel acc s e s1, xml_content "key" s = .err e s1 →
      e ≠ .UnexpectedXmlEvent (.EndElement "dict") →
      xml_dictLoop (xml_object ext fuel) (fuel + 1) acc s = .err e s1) ∧
    (∀ ext fuel acc s k s1 e s2, xml_content "key" s = .ok k s1 →
      xml_object ext fuel s1 = .err e s2 →
      xml_dictLoop (xml_object ext fuel) (fuel + 1) acc s = .err e s2) ∧
    (∀ ext fuel,
      from_xml_reader ext (fuel + 2)
        [.ok .StartDocument, .ok (.StartElement "plist"),
         .ok (.StartElement "array"), .ok (.EndElement "array"),
         .ok (.EndElement "plist")] = .ok (.Array []) []) ∧
    (∀ ext fuel,
      from_xml_reader ext (fuel + 2)
        [.ok .StartDocument, .ok (.StartElement "plist"),
         .ok (.StartElement "dict"), .ok (.EndElement "dict"),
         .ok (.EndElement "plist")] = .ok (.Dict []) []) := by
  refine ⟨?_, ?_, ?_, ?_, ?_, ?_, ?_, ?_⟩
  · intro ext fuel acc s v s1 h
    conv_lhs => rw [xml_arrayLoop]
    rw [h]
  · intro ext fuel acc s s1 h
    unfold xml_arrayLoop
    rw [h]
    simp
  · intro ext fuel acc s e s1 h hne
    unfold xml_arrayLoop
    rw [h]
    cases e <;> try rfl
    rename_i ev
    cases ev <;> try rfl
    rename_i n
    by_cases hn : n = "array"
    · subst hn; exact absurd rfl hne
    · simp [hn]
  · intro ext fuel acc s s1 h
    unfold xml_dictLoop
    rw [h]
    simp
  · intro ext fuel acc s e s1 h hne
    unfold xml_dictLoop
    rw [h]
    cases e <;> try rfl
    rename_i ev
    cases ev <;> try rfl
    rename_i n
    by_cases hn : n = "dict"
    · subst hn; exact absurd rfl hne
    · simp [hn]
  · intro ext fuel acc s k s1 e s2 hk hv
    unfold xml_dictLoop
    rw [hk]
    dsimp only
    rw [hv]
  · intro ext fuel
    simp [from_xml_reader, xml_event, xml_start, xml_object, xml_arrayRun,
      xml_arrayLoop, xml_end, xml_endAux]
  · intro ext fuel
    simp [from_xml_reader, xml_event, xml_start, xml_object, xml_dictRun,
      xml_dictLoop, xml_end, xml_endAux, xml_content]

theorem claim_C3_witness :
    (xml_object extNone 1 [.ok (.EndElement "array")] =
      .err (.UnexpectedXmlEvent (.EndElement "array")) [] ∧
     xml_arrayLoop (xml_object extNone 1) 2 [] [.ok (.EndElement "array")] =
      .ok [] []) ∧
    (xml_object extNone 1 [.ok .EndDocument] =
      .err (.UnexpectedXmlEvent .EndDocument) [] ∧
     xml_arrayLoop (xml_object extNone 1) 2 [] [.ok .EndDocument] =
      .err (.UnexpectedXmlEvent .EndDocument) []) :=
  ⟨⟨by rfl, claim_C3.2.1 extNone 1 [] [.ok (.EndElement "array")] [] (by rfl)⟩,
   ⟨by rfl, claim_C3.2.2.1 extNone 1 [] [.ok .EndDocument]
      (.UnexpectedXmlEvent .EndDocument) [] (by rfl) (by simp)⟩⟩

theorem err_inj_ne {σ α : Type} {A e : Error} {B s1 : σ}
    (h : (PRes.err A B : PRes σ α) = .err e s1)
    (hA : A ≠ Error.InvalidKeyObject) : e ≠ Error.InvalidKeyObject := by
  simp only [PRes.err.injEq] at h
  obtain ⟨rfl, -⟩ := h
  exact hA

theorem xml_event_err_ne (pred : XmlEvent → Option Bool) :
    ∀ s e s1, xml_event pred s = .err e s1 →
      e ≠ Error.InvalidKeyObject := by
  intro s
  induction s with
  | nil =>
      intro e s1 h
      simp only [xml_event] at h
      exact err_inj_ne h (by simp)
  | cons hd tl ih =>
      intro e s1 h
      cases hd with
      | error e2 =>
          simp only [xml_event] at h
          exact err_inj_ne h (by simp)
      | ok ev =>
          simp only [xml_event] at h
          split at h
          · simp_all
          · exact err_inj_ne h (by simp)
          · exact ih e s1 h

theorem xml_start_err_ne (name : String) :
    ∀ s e s1, xml_start name s = .err e s1 →
      e ≠ Error.InvalidKeyObject :=
  xml_event_err_ne _

theorem xml_endAux_err_ne (name : String) :
    ∀ s (acc : Option String) e s1, xml_endAux name acc s = .err e s1 →
      e ≠ Error.InvalidKeyObject := by
  intro s
  induction s with
  | nil =>
      intro acc e s1 h
      simp only [xml_endAux] at h
      exact err_inj_ne h (by simp)
  | cons hd tl ih =>
      intro acc e s1 h
      cases hd with
      | error e2 =>
          simp only [xml_endAux] at h
          exact err_inj_ne h (by simp)
      | ok ev =>
          cases ev with
          | EndElement n =>
              simp only [xml_endAux] at h
              split at h
              · simp_all
              · exact err_inj_ne h (by simp)
          | Characters str =>
              simp only [xml_endAux] at h
              exact ih (some str) e s1 h
          | StartDocument =>
              simp only [xml_endAux] at h
              exact err_inj_ne h (by simp)
          | EndDocument =>
              simp only [xml_endAux] at h
              exact err_inj_ne h (by simp)
          | StartElement n =>
              simp only [xml_endAux] at h
              exact err_inj_ne h (by simp)
          | CData c =>
              simp only [xml_endAux] at h
              exact err_inj_ne h (by simp)

theorem xml_content_err_ne (name : String) (s : XStream) :
    ∀ e s1, xml_content name s = .err e s1 →
      e ≠ Error.InvalidKeyObject := by
  intro e s1 h
  unfold xml_content at h
  split at h
  · exact xml_endAux_err_ne name _ none e s1 h
  · rename_i e2 s2 heq
    exact err_inj_ne h (xml_start_err_ne name s e2 s2 heq)
  · simp_all

theorem xml_boolean_err_ne :
    ∀ s e s1, xml_boolean s = .err e s1 →
      e ≠ Error.InvalidKeyObject := by
  intro s
  induction s with
  | nil =>
      intro e s1 h
      simp only [xml_boolean] at h
      exact err_inj_ne h (by simp)
  | cons hd tl ih =>
      intro e s1 h
      cases hd with
      | error e2 =>
          simp only [xml_boolean] at h
          exact err_inj_ne h (by simp)
      | ok ev =>
          cases ev with
          | StartElement n =>
              simp only [xml_boolean] at h
              split at h
              · split at h
                · simp_all
                · rename_i e2 s2 heq
                  exact err_inj_ne h (xml_endAux_err_ne "true" tl none e2 s2 heq)
                · simp_all
              · split at h
                · split at h
                  · simp_all
                  · rename_i e2 s2 heq
                    exact err_inj_ne h
                      (xml_endAux_err_ne "false" tl none e2 s2 heq)
                  · simp_all
                · exact err_inj_ne h (by simp)
          | Characters str =>
              simp only [xml_boolean] at h
              exact ih e s1 h
          | StartDocument =>
              simp only [xml_boolean] at h
              exact err_inj_ne h (by simp)
          | EndDocument =>
              simp only [xml_boolean] at h
              exact err_inj_ne h (by simp)
          | EndElement n =>
              simp only [xml_boolean] at h
              exact err_inj_ne h (by simp)
          | CData c =>
              simp only [xml_boolean] at h
              exact err_inj_ne h (by simp)

theorem xml_integer_err_ne (ext : ExtConv) (s : XStream) :
    ∀ e s1, xml_integer ext s = .err e s1 →
      e ≠ Error.InvalidKeyObject := by
  intro e s1 h
  unfold xml_integer at h
  split at h
  · split at h
    · simp_all
    · exact err_inj_ne h (by simp)
  · rename_i e2 s2 heq
    exact err_inj_ne h (xml_content_err_ne "integer" s e2 s2 heq)
  · simp_all

theorem xml_real_err_ne (ext : ExtConv) (s : XStream) :
    ∀ e s1, xml_real ext s = .err e s1 →
      e ≠ Error.InvalidKeyObject := by
  intro e s1 h
  unfold xml_real at h
  split at h
  · split at h
    · simp_all
    · exact err_inj_ne h (by simp)
  · rename_i e2 s2 heq
    exact err_inj_ne h (xml_content_err_ne "real" s e2 s2 heq)
  · simp_all

theorem xml_date_err_ne (ext : ExtConv) (s : XStream) :
    ∀ e s1, xml_date ext s = .err e s1 →
      e ≠ Error.InvalidKeyObject := by
  intro e s1 h
  unfold xml_date at h
  split at h
  · split at h
    · simp_all
    · exact err_inj_ne h (by simp)
  · rename_i e2 s2 heq
    exact err_inj_ne h (xml_content_err_ne "date" s e2 s2 heq)
  · simp_all

theorem xml_data_err_ne (ext : ExtConv) (s : XStream) :
    ∀ e s1, xml_data ext s = .err e s1 →
      e ≠ Error.InvalidKeyObject := by
  intro e s1 h
  unfold xml_data at h
  split at h
  · split at h
    · simp_all
    · exact err_inj_ne h (by simp)
  · rename_i e2 s2 heq
    exact err_inj_ne h (xml_content_err_ne "data" s e2 s2 heq)
  · simp_all

theorem xml_string_err_ne (s : XStream) :
    ∀ e s1, xml_string s = .err e s1 →
      e ≠ Error.InvalidKeyObject := by
  intro e s1 h
  unfold xml_string at h
  split at h
  · simp_all
  · rename_i e2 s2 heq
    exact err_inj_ne h (xml_content_err_ne "string" s e2 s2 heq)
  · simp_all

theorem xml_arrayLoop_err_ne (objFn : XStream → PRes XStream Plist)
    (hobj : ∀ s e s1, objFn s = .err e s1 → e ≠ Error.InvalidKeyObject) :
    ∀ fuel acc s e s1, xml_arrayLoop objFn fuel acc s = .err e s1 →
      e ≠ Error.InvalidKeyObject := by
  intro fuel
  induction fuel with
  | zero =>
      intro acc s e s1 h
      simp only [xml_arrayLoop] at h
      simp_all
  | succ n ih =>
      intro acc s e s1 h
      simp only [xml_arrayLoop] at h
      split at h
      · exact ih _ _ e s1 h
      · rename_i ev s2 heq
        split at h
        · split at h
          · simp_all
          · exact err_inj_ne h (hobj s _ s2 heq)
        · exact err_inj_ne h (hobj s _ s2 heq)
      · rename_i e2 s2 hne heq
        exact err_inj_ne h (hobj s e2 s2 heq)
      · simp_all

theorem xml_dictLoop_err_ne (objFn : XStream → PRes XStream Plist)
    (hobj : ∀ s e s1, objFn s = .err e s1 → e ≠ Error.InvalidKeyObject) :
    ∀ fuel acc s e s1, xml_dictLoop objFn fuel acc s = .err e s1 →
      e ≠ Error.InvalidKeyObject := by
  intro fuel
  induction fuel with
  | zero =>
      intro acc s e s1 h
      simp only [xml_dictLoop] at h
      simp_all
  | succ n ih =>
      intro acc s e s1 h
      simp only [xml_dictLoop] at h
      split at h
      · split at h
        · exact ih _ _ e s1 h
        · rename_i e2 s2 heq
          exact err_inj_ne h (hobj _ e2 s2 heq)
        · simp_all
      · rename_i ev s2 heq
        split at h
        · split at h
          · simp_all
          · exact err_inj_ne h (xml_content_err_ne "key" s _ s2 heq)
        · exact err_inj_ne h (xml_content_err_ne "key" s _ s2 heq)
      · rename_i e2 s2 hne heq
        exact err_inj_ne h (xml_content_err_ne "key" s e2 s2 heq)
      · simp_all

theorem xml_arrayRun_err_ne (objFn : XStream → PRes XStream Plist)
    (hobj : ∀ s e s1, objFn s = .err e s1 → e ≠ Error.InvalidKeyObject)
    (fuel : Nat) (s : XStream) :
    ∀ e s1, xml_arrayRun objFn fuel s = .err e s1 →
      e ≠ Error.InvalidKeyObject := by
  intro e s1 h
  unfold xml_arrayRun at h
  split at h
  · split at h
    · simp_all
    · rename_i e2 s2 heq
      exact err_inj_ne h (xml_arrayLoop_err_ne objFn hobj fuel [] _ e2 s2 heq)
    · simp_all
  · rename_i e2 s2 heq
    exact err_inj_ne h (xml_start_err_ne "array" s e2 s2 heq)
  · simp_all

theorem xml_dictRun_err_ne (objFn : XStream → PRes XStream Plist)
    (hobj : ∀ s e s1, objFn s = .err e s1 → e ≠ Error.InvalidKeyObject)
    (fuel : Nat) (s : XStream) :
    ∀ e s1, xml_dictRun objFn fuel s = .err e s1 →
      e ≠ Error.InvalidKeyObject := by
  intro e s1 h
  unfold xml_dictRun at h
  split at h
  · split at h
    · simp_all
    · rename_i e2 s2 heq
      exact err_inj_ne h (xml_dictLoop_err_ne objFn hobj fuel [] _ e2 s2 heq)
    · simp_all
  · rename_i e2 s2 heq
    exact err_inj_ne h (xml_start_err_ne "dict" s e2 s2 heq)
  · simp_all

theorem xml_object_err_ne (ext : ExtConv) :
    ∀ fuel s e s1, xml_object ext fuel s = .err e s1 →
      e ≠ Error.InvalidKeyObject := by
  intro fuel
  induction fuel with
  | zero =>
      intro s e s1 h
      simp only [xml_object] at h
      simp_all
  | succ n ih =>
      intro s e s1 h
      simp only [xml_object] at h
      split at h
      · split at h
        · exact xml_boolean_err_ne _ e s1 h
        · exact xml_boolean_err_ne _ e s1 h
        · exact xml_integer_err_ne ext _ e s1 h
        · exact xml_real_err_ne ext _ e s1 h
        · exact xml_date_err_ne ext _ e s1 h
        · exact xml_data_err_ne ext _ e s1 h
        · exact xml_string_err_ne _ e s1 h
        · exact xml_arrayRun_err_ne (xml_object ext n) (ih) n _ e s1 h
        · exact xml_dictRun_err_ne (xml_object ext n) (ih) n _ e s1 h
        · exact err_inj_ne h (by simp)
      · exact ih _ e s1 h
      · exact err_inj_ne h (by simp)
      · exact err_inj_ne h (by simp)
      · exact err_inj_ne h (by simp)

/-- Claim C5: in a binary dictionary the key reference of each pair is
resolved before its paired value reference; a key resolving to a
non-String object fails the whole decode with InvalidKeyObject (the
paired value is never resolved - the result does not depend on it), a key
error propagates, and a String key leads to the value being resolved and
the pair inserted in (key, value) order; markup dictionaries can never
fail with InvalidKeyObject because key elements are parsed as text. -/
theorem claim_C5 :
    (∀ fuel ref_size (offsets bytes : List Nat) k v rest acc pos p p1,
      object fuel k ref_size offsets bytes pos = .ok p p1 →
      (∀ str, p ≠ .String str) →
      dictLoop (fun w q => object fuel w ref_size offsets bytes q)
        ((k, v) :: rest) acc pos = .err .InvalidKeyObject p1) ∧
    (∀ fuel ref_size (offsets bytes : List Nat) k v rest acc pos str val
        p1 p2,
      object fuel k ref_size offsets bytes pos = .ok (.String str) p1 →
      object fuel v ref_size offsets bytes p1 = .ok val p2 →
      dictLoop (fun w q => object fuel w ref_size offsets bytes q)
        ((k, v) :: rest) acc pos =
        dictLoop (fun w q => object fuel w ref_size offsets bytes q)
          rest (insertAssoc acc str val) p2) ∧
    (∀ fuel ref_size (offsets bytes : List Nat) k v rest acc pos e p1,
      object fuel k ref_size offsets bytes pos = .err e p1 →
      dictLoop (fun w q => object fuel w ref_size offsets bytes q)
        ((k, v) :: rest) acc pos = .err e p1) ∧
    (∀ ext fuel s e s1, xml_dict ext fuel s = .err e s1 →
      e ≠ Error.InvalidKeyObject) := by
  refine ⟨?_, ?_, ?_, ?_⟩
  · intro fuel ref_size offsets bytes k v rest acc pos p p1 h hns
    simp only [dictLoop]
    rw [h]
    cases p with
    | String str => exact absurd rfl (hns str)
    | Array xs => rfl
    | Dict entries => rfl
    | Boolean b => rfl
    | Data bs => rfl
    | DateTime t => rfl
    | Real r => rfl
    | Integer i => rfl
  · intro fuel ref_size offsets bytes k v rest acc pos str val p1 p2 hk hv
    simp only [dictLoop]
    rw [hk]
    dsimp only
    rw [hv]
  · intro fuel ref_size offsets bytes k v rest acc pos e p1 hk
    simp only [dictLoop]
    rw [hk]
  · intro ext fuel s e s1 h
    cases fuel with
    | zero => simp [xml_dict] at h
    | succ n =>
        simp only [xml_dict] at h
        exact xml_dictRun_err_ne (xml_object ext n) (xml_object_err_ne ext n)
          n s e s1 h

theorem claim_C5_witness :
    dictLoop (fun w q => object 1 w 1 [0] [9] q) [(0, 0)] [] 5 =
      .err .InvalidKeyObject 1 ∧
    (Error.UnexpectedXmlEof ≠ Error.InvalidKeyObject) :=
  ⟨claim_C5.1 1 1 [0] [9] 0 0 [] [] 5 (.Boolean true) 1 (by rfl)
      (fun str => by simp),
   claim_C5.2.2.2 extNone 1 [] Error.UnexpectedXmlEof [] (by rfl)⟩

/-- Claim C10: duplicate dictionary keys are not an error in either
format: insertAssoc (the model of HashMap::insert used by both dict
loops) makes the last inserted value for a key win while leaving other
keys untouched, and both a binary dictionary and a markup dictionary
with the key "a" bound twice decode successfully to a Dictionary mapping
"a" to the value of the last occurrence. -/
theorem claim_C10 :
    (∀ (l : List (String × Plist)) k v,
      lookupAssoc (insertAssoc l k v) k = some v ∧
      (∀ k2, k2 ≠ k →
        lookupAssoc (insertAssoc l k v) k2 = lookupAssoc l k2)) ∧
    outcome (object 10 3 1 [0, 2, 4, 6]
      [0x51, 97, 0x10, 1, 0x10, 2, 0xD2, 0, 0, 1, 2] 0) =
      .ok (.Dict [("a", .Integer 2)]) ∧
    (∀ ext, xml_dict ext 10
      [.ok (.StartElement "dict"),
       .ok (.StartElement "key"), .ok (.Characters "a"),
       .ok (.EndElement "key"),
       .ok (.StartElement "string"), .ok (.Characters "x"),
       .ok (.EndElement "string"),
       .ok (.StartElement "key"), .ok (.Characters "a"),
       .ok (.EndElement "key"),
       .ok (.StartElement "string"), .ok (.Characters "y"),
       .ok (.EndElement "string"),
       .ok (.EndElement "dict")] = .ok (.Dict [("a", .String "y")]) []) := by
  refine ⟨?_, by rfl, fun ext => by rfl⟩
  intro l k v
  induction l with
  | nil =>
      refine ⟨by simp [insertAssoc, lookupAssoc], ?_⟩
      intro k2 hne
      simp [insertAssoc, lookupAssoc, Ne.symm hne]
  | cons hd tl ih =>
      obtain ⟨k1, v1⟩ := hd
      by_cases hk : k1 = k
      · subst hk
        refine ⟨by simp [insertAssoc, lookupAssoc], ?_⟩
        intro k2 hne
        simp [insertAssoc, lookupAssoc, Ne.symm hne]
      · refine ⟨?_, ?_⟩
        · simp [insertAssoc, lookupAssoc, hk, ih.1]
        · intro k2 hne
          by_cases h12 : k1 = k2
          · subst h12
            simp [insertAssoc, lookupAssoc, hk]
          · simp [insertAssoc, lookupAssoc, hk, h12, (ih.2 k2 hne)]

theorem claim_C10_witness :
    lookupAssoc (insertAssoc [("a", Plist.Integer 1)] "a" (Plist.Integer 2))
      "a" = some (Plist.Integer 2) ∧
    lookupAssoc (insertAssoc [("a", Plist.Integer 1)] "a" (Plist.Integer 2))
      "b" = lookupAssoc [("a", Plist.Integer 1)] "b" :=
  ⟨(claim_C10.1 [("a", Plist.Integer 1)] "a" (Plist.Integer 2)).1,
   (claim_C10.1 [("a", Plist.Integer 1)] "a" (Plist.Integer 2)).2 "b"
     (by decide)⟩

theorem decodeF64_qtr : decodeF64 4608308318706860032 = .finite (5/4) := by
  have h1 : (4608308318706860032 >>> 63 : Nat) = 0 := by decide
  have h2 : ((4608308318706860032 >>> 52) &&& 2047 : Nat) = 1023 := by
    decide
  have h3 : (4608308318706860032 &&& (2 ^ 52 - 1) : Nat) =
      1125899906842624 := by decide
  simp only [decodeF64, h1, h2, h3]
  norm_num

/-- Claim C4: in binary date decoding, the sub-second component is
computed by multiplying the fractional part of the decoded 8-byte
big-endian f64 (seconds since the 2001-01-01 reference epoch, 978307200
seconds after UNIX_EPOCH) by 10 * 1,000,000,000 - ten times the correct
nanoseconds-per-second scale; concretely, the payload for 1.25 seconds
decodes to reference + 3.5 seconds instead of reference + 1.25. -/
theorem claim_C4 :
    (∀ (tag : Nat) (p : List Nat) (bits : Nat) (q : Rat),
      p.length = 8 → beFoldE 8 p = .ok bits → decodeF64 bits = .finite q →
      date (tag :: p) 0 =
        .ok (.DateTime
          ⟨978307200 + (castU64sat (.finite q) +
            castU32sat (.finite ((q - ratTrunc q) * (10 * 1000000000))) /
              1000000000),
           castU32sat (.finite ((q - ratTrunc q) * (10 * 1000000000))) %
             1000000000⟩) 9) ∧
    date [0x33, 0x3F, 0xF4, 0, 0, 0, 0, 0, 0] 0 =
      .ok (.DateTime ⟨978307203, 500000000⟩) 9 := by
  have main : ∀ (tag : Nat) (p : List Nat) (bits : Nat) (q : Rat),
      p.length = 8 → beFoldE 8 p = .ok bits → decodeF64 bits = .finite q →
      date (tag :: p) 0 =
        .ok (.DateTime
          ⟨978307200 + (castU64sat (.finite q) +
            castU32sat (.finite ((q - ratTrunc q) * (10 * 1000000000))) /
              1000000000),
           castU32sat (.finite ((q - ratTrunc q) * (10 * 1000000000))) %
             1000000000⟩) 9 := by
    intro tag p bits q hlen hbits hq
    unfold date
    rw [read_exact_of_le 9 _ 0 (by simp [hlen])]
    rw [show ((tag :: p).drop 0).take 9 = tag :: p from by
      simp [List.take_of_length_le, hlen]]
    dsimp only
    rw [show (tag :: p).drop 1 = p from rfl, hbits]
    dsimp only
    rw [hq]
    simp only [pfract, pmulC]
    norm_num
  refine ⟨main, ?_⟩
  have hq54 : decodeF64 4608308318706860032 = .finite (5/4) := decodeF64_qtr
  have h := main 0x33 [0x3F, 0xF4, 0, 0, 0, 0, 0, 0] 4608308318706860032
    (5/4) (by decide) (by decide) hq54
  rw [h]
  have htr : ratTrunc (5/4 : ℚ) = 1 := by
    unfold ratTrunc
    rw [if_pos (by norm_num)]
    rw [show Rat.floor (5/4 : ℚ) = ⌊(5/4 : ℚ)⌋ from rfl]
    norm_num
  rw [htr]
  have hfr : ((5/4 : ℚ) - ((1 : Int) : ℚ)) * (10 * 1000000000) =
      ((2500000000 : Nat) : ℚ) := by norm_num
  rw [hfr]
  have htr2 : ratTrunc ((2500000000 : Nat) : ℚ) = 2500000000 := by
    unfold ratTrunc
    rw [if_pos (by norm_num)]
    rw [show Rat.floor ((2500000000 : Nat) : ℚ) =
      ⌊((2500000000 : Nat) : ℚ)⌋ from rfl]
    norm_num
  simp only [castU32sat, castU64sat, htr, htr2]
  norm_num
  decide

theorem claim_C4_witness :
    date (0x33 :: [0x3F, 0xF4, 0, 0, 0, 0, 0, 0]) 0 =
      .ok (.DateTime
        ⟨978307200 + (castU64sat (.finite (5/4)) +
          castU32sat (.finite (((5/4 : ℚ) - ratTrunc (5/4 : ℚ)) *
            (10 * 1000000000))) / 1000000000),
         castU32sat (.finite (((5/4 : ℚ) - ratTrunc (5/4 : ℚ)) *
           (10 * 1000000000))) % 1000000000⟩) 9 :=
  claim_C4.1 0x33 [0x3F, 0xF4, 0, 0, 0, 0, 0, 0] 4608308318706860032 (5/4)
    (by decide) (by decide) decodeF64_qtr
